import Mathlib

/-!
Verification of the range-partitioned batch PDF-conversion pipeline in
`src/convert_batch.py`.

The Python source is shallowly embedded below.  Pure helpers (`chunks`, the
manifest slice in `run`, `os.path.splitext`, `os.path.basename`) become Lean
functions on lists; the effectful per-document pipeline
(`pre_process` / `process_single_pdf` / `post_process`) is embedded as a
function from the behaviour of its external collaborators (fetch, text-length
pre-check, conversion engine, upload) to an explicit result record holding the
outcome, the emitted log events and the observable side effects.  Python
exceptions are modelled with `Except`: a `.error` escaping a function models an
uncaught exception escaping it.
-/

namespace ConvertBatch

/-- Python `str.rfind c`: the highest index at which `c` occurs in `p`,
or `-1` when `c` does not occur (used by `os.path.splitext` and
`os.path.basename`). -/
def rfind (c : Char) : List Char → Int
  | [] => -1
  | x :: xs =>
    if 0 ≤ rfind c xs then rfind c xs + 1
    else if x = c then 0 else -1

/-- POSIX `os.path.splitext` (CPython `genericpath._splitext` with
`sep = '/'`, `extsep = '.'`): locate the last `'/'` and the last `'.'`;
when the last dot lies strictly after the last separator and the characters
between them are not all dots, split at the last dot, otherwise return the
whole path with an empty extension. -/
def splitext (p : List Char) : List Char × List Char :=
  let sepIndex := rfind '/' p
  let dotIndex := rfind '.' p
  if sepIndex < dotIndex then
    let base := (p.drop (sepIndex + 1).toNat).take (dotIndex - sepIndex - 1).toNat
    if base.all (fun c => c == '.') then (p, [])
    else (p.take dotIndex.toNat, p.drop dotIndex.toNat)
  else (p, [])

/-- POSIX `os.path.basename`: everything after the last `'/'` (the whole
path when there is no `'/'`, since then `rfind` yields `-1`). -/
def basename (p : List Char) : List Char :=
  p.drop (rfind '/' p + 1).toNat

/-- Line 152 of `convert_batch.py`:
`out_relative_path = os.path.splitext(fname)[0] + ".md"` — the destination
path of the converted artifact relative to the destination location. -/
def out_relative_path (fname : List Char) : List Char :=
  (splitext fname).1 ++ ".md".data

/-- Lines 111–114: `chunks(lst, n)` yields `lst[i:i + n]` for
`i in range(0, len(lst), n)`.  For `n ≥ 1` this is exactly the recursion
below (first `n` elements, then the chunks of the rest).  Python raises
`ValueError` on step `0`; `n = 0` is outside the function's domain and the
embedding returns `[]` there. -/
def chunks : List α → Nat → List (List α)
  | [], _ => []
  | _ :: _, 0 => []
  | x :: xs, n + 1 =>
    (x :: xs).take (n + 1) :: chunks ((x :: xs).drop (n + 1)) (n + 1)
termination_by l _ => l.length
decreasing_by simp [List.length_drop]; omega

/-- Lines 97–103: `monitor_queue` loops forever, dequeuing one message per
iteration; it breaks on the sentinel `None` and prints every other message.
The argument models the successive results of `queue.get()`; the result is
`some printed` when the loop terminates having printed `printed` in order,
and `none` when the input stream is exhausted before a sentinel arrives
(the real loop would then block in `queue.get()` forever). -/
def monitor_queue : List (Option String) → Option (List String)
  | [] => none
  | none :: _ => some []
  | some m :: rest => (monitor_queue rest).map (fun printed => m :: printed)

/-- Lines 196–197 of `run`:
`urls = [quote(url.strip()) for url in fin.readlines()][offset: offset + length]`.
`enc` stands for `fun u => quote(u.strip())`.  For `0 ≤ a` and `0 ≤ len` the
Python slice `l[a : a + len]` is `(l.drop a).take len`. -/
def resolveRange (enc : String → String) (lines : List String)
    (offset length : Nat) : List String :=
  ((lines.map enc).drop offset).take length

/-- Outcome classification of one document, following the spec data model:
the branch of `process_single_pdf` that produced the result. -/
inductive Outcome
  | success
  | skippedShort
  | skippedEmpty
  | failed
  deriving DecidableEq, Repr

/-- Whether an outcome is one of the two benign skip variants. -/
def Outcome.isSkipped : Outcome → Bool
  | .skippedShort => true
  | .skippedEmpty => true
  | _ => false

/-- One log record: `message` with its level collapsed to
informational (`isError = false`, `logger.info`) versus error
(`isError = true`, `logger.exception`). -/
structure Event where
  message : String
  isError : Bool
  deriving DecidableEq, Repr

/-- Behaviour of the external collaborators for one document:
`fetch` is the result of `pre_process` (`azcopy.copy`), either the local
file path or a raised exception; `textLength` is what
`get_length_of_text` would return; `convert` is the result of
`convert_single_pdf` (the extracted text, or a raised exception);
`upload` is the result of `azcopy.upload`. -/
structure DocBehavior where
  fetch : Except String String
  textLength : Nat
  convert : Except String String
  upload : Except String Unit

/-- Observable state after `post_process` (lines 121–134): whether the local
file was written, whether the upload call succeeded, the events logged, and
`raised` carrying an exception raised by the upload call (to be caught — or
not — by the caller). -/
structure PostState where
  wrote : Bool
  uploaded : Bool
  events : List Event
  raised : Option String
  deriving DecidableEq, Repr

/-- Python `str.strip()` (no argument): remove whitespace characters from
both ends of the string.  (Python strips the Unicode whitespace class;
`Char.isWhitespace` covers the ASCII part, which is all the claims need.) -/
def pyStrip (s : List Char) : List Char :=
  ((s.dropWhile Char.isWhitespace).reverse.dropWhile Char.isWhitespace).reverse

/-- Lines 121–134: write and upload only when `len(full_text.strip()) > 0`,
otherwise log an informational empty-file message and do nothing. -/
def post_process (full_text : String) (bn : String)
    (upload : Except String Unit) : PostState :=
  if 0 < (pyStrip full_text.data).length then
    match upload with
    | .ok _ => ⟨true, true, [⟨"Uploading " ++ bn, false⟩], none⟩
    | .error e => ⟨true, false, [⟨"Uploading " ++ bn, false⟩], some e⟩
  else
    ⟨false, false,
      [⟨"Empty file: " ++ bn ++ ".  No valid convert result", false⟩], none⟩

/-- Observable result of one `process_single_pdf` call that returned
normally: outcome class, events logged, whether `get_length_of_text` was
called, whether `convert_single_pdf` was called, whether a local artifact
was written and uploaded, and the destination-relative output path. -/
structure RunResult where
  outcome : Outcome
  events : List Event
  precheckInvoked : Bool
  engineInvoked : Bool
  wrote : Bool
  uploaded : Bool
  outPath : String
  deriving DecidableEq, Repr

/-- Lines 136–169, `process_single_pdf`.  All work is inside
`try: ... except Exception as e: logger.info(f"Error converting {unquote(local_file)}"); logger.exception(e)`.
When the fetch (`pre_process`) raises, the handler evaluates its f-string
before logging anything, and the local variable `local_file` was never
assigned, so the handler itself raises `UnboundLocalError`, which escapes
`process_single_pdf`; this is modelled by the outer `.error`.  For exceptions
raised after `local_file` is bound (engine failure, upload failure) the
handler succeeds: it logs an informational line plus the exception at error
level, and the function returns `None` normally.  The quality gate
(lines 160–163) runs only when `min_length` is truthy (present and nonzero)
and returns early — with no skip log line — when the pre-checked text length
is strictly below it. -/
def process_single_pdf (fname : String) (beh : DocBehavior)
    (min_length : Option Int) : Except String RunResult :=
  match beh.fetch with
  | .error _ => .error "UnboundLocalError: local_file"
  | .ok local_file =>
    let out_filename := String.mk ((splitext local_file.data).1 ++ ".md".data)
    let outPath := String.mk (out_relative_path fname.data)
    let evConverting : Event := ⟨"Converting " ++ fname, false⟩
    let ml := min_length.getD 0
    if ml ≠ 0 ∧ (beh.textLength : Int) < ml then
      .ok ⟨.skippedShort, [evConverting], true, false, false, false, outPath⟩
    else
      match beh.convert with
      | .error e =>
        .ok ⟨.failed,
          [evConverting, ⟨"Error converting " ++ local_file, false⟩, ⟨e, true⟩],
          decide (ml ≠ 0), true, false, false, outPath⟩
      | .ok full_text =>
        let ps := post_process full_text
          (String.mk (basename out_filename.data)) beh.upload
        match ps.raised with
        | some e =>
          .ok ⟨.failed,
            evConverting :: ps.events ++
              [⟨"Error converting " ++ local_file, false⟩, ⟨e, true⟩],
            decide (ml ≠ 0), true, ps.wrote, ps.uploaded, outPath⟩
        | none =>
          .ok ⟨if ps.wrote then .success else .skippedEmpty,
            evConverting :: ps.events,
            decide (ml ≠ 0), true, ps.wrote, ps.uploaded, outPath⟩

/-- One cluster task as built in the `__main__` submit loop
(lines 269–288): its id `task-{offset}-{offset + batch_size - 1}` and the
offset/length pair placed into its environment. -/
structure Task where
  id : String
  envOffset : Nat
  envLength : Nat
  deriving DecidableEq, Repr

/-- Lines 269–288: `for offset in range(0, tot_files, batch_size):` builds a
task, appends it — and then hits an unconditional `break` (commented
"only submit one batch for debug"), so at most the single task for
`offset = 0` is ever built.  Requires `batch_size ≥ 1` (Python `range`
raises on step `0`). -/
def build_tasks (tot_files batch_size : Nat) : List Task :=
  if tot_files = 0 then []
  else [⟨"task-0-" ++ toString (batch_size - 1), 0, batch_size⟩]

/-! ## Helper lemmas -/

theorem rfind_not_mem (c : Char) (l : List Char) (h : c ∉ l) : rfind c l = -1 := by
  induction l with
  | nil => rfl
  | cons x xs ih =>
    rw [rfind]
    have hx : ¬(x = c) := fun hxc => h (hxc ▸ List.mem_cons_self x xs)
    have hxs : c ∉ xs := fun hm => h (List.mem_cons_of_mem x hm)
    rw [ih hxs]
    simp [hx]

theorem rfind_nonneg_iff (c : Char) (l : List Char) : 0 ≤ rfind c l ↔ c ∈ l := by
  induction l with
  | nil => simp [rfind]
  | cons x xs ih =>
    rw [rfind]
    by_cases h : 0 ≤ rfind c xs
    · rw [if_pos h]
      simp only [List.mem_cons]
      constructor
      · intro _; exact Or.inr (ih.mp h)
      · intro _; omega
    · rw [if_neg h]
      by_cases hx : x = c
      · simp [hx, List.mem_cons]
      · rw [if_neg hx]
        simp only [List.mem_cons]
        constructor
        · intro hc; omega
        · rintro (rfl | hm)
          · exact absurd rfl hx
          · exact absurd (ih.mpr hm) h

theorem rfind_append_mem (c : Char) (l1 l2 : List Char) (h : c ∈ l2) :
    rfind c (l1 ++ l2) = l1.length + rfind c l2 := by
  induction l1 with
  | nil => simp
  | cons x xs ih =>
    have h2 : 0 ≤ rfind c (xs ++ l2) := by
      rw [ih]
      have := (rfind_nonneg_iff c l2).mpr h
      omega
    rw [List.cons_append, rfind, if_pos h2, ih]
    simp
    omega

theorem rfind_append_not_mem (c : Char) (l1 l2 : List Char) (h : c ∉ l2) :
    rfind c (l1 ++ l2) = rfind c l1 := by
  induction l1 with
  | nil => simp [rfind_not_mem c l2 h, rfind]
  | cons x xs ih =>
    rw [List.cons_append, rfind, rfind, ih]

/-- On a path of the shape `dir ++ "/" ++ doc ++ ".pdf"`, where `doc` holds no
separator and at least one character other than a dot, `splitext` splits off
exactly the `.pdf` extension. -/
theorem splitext_dir_doc (dir doc : List Char)
    (hsep : '/' ∉ doc) (hdot : ∃ c ∈ doc, c ≠ '.') :
    splitext (dir ++ '/' :: (doc ++ ".pdf".data)) = (dir ++ '/' :: doc, ".pdf".data) := by
  have hpdf_sep : '/' ∉ ".pdf".data := by decide
  have hpdf_dot : '.' ∈ ".pdf".data := by decide
  have hsep_eq : rfind '/' (dir ++ '/' :: (doc ++ ".pdf".data)) = dir.length := by
    have : dir ++ '/' :: (doc ++ ".pdf".data) = (dir ++ ['/']) ++ (doc ++ ".pdf".data) := by
      simp
    rw [this, rfind_append_not_mem _ _ _ (by
      intro hm
      rcases List.mem_append.mp hm with h1 | h2
      · exact hsep h1
      · exact hpdf_sep h2)]
    rw [rfind_append_mem _ _ _ (List.mem_singleton.mpr rfl)]
    simp [rfind]
  have hdot_eq : rfind '.' (dir ++ '/' :: (doc ++ ".pdf".data))
      = (dir.length : Int) + 1 + doc.length := by
    have : dir ++ '/' :: (doc ++ ".pdf".data) = (dir ++ '/' :: doc) ++ ".pdf".data := by
      simp
    rw [this, rfind_append_mem _ _ _ hpdf_dot]
    have : rfind '.' ".pdf".data = 0 := by decide
    rw [this]
    simp
    omega
  have hassoc : dir ++ '/' :: (doc ++ ".pdf".data) = (dir ++ '/' :: doc) ++ ".pdf".data := by
    simp
  have hlen1 : (dir ++ ['/']).length = dir.length + 1 := by simp
  have hlen2 : (dir ++ '/' :: doc).length = dir.length + 1 + doc.length := by
    simp
    omega
  rw [splitext]
  simp only [hsep_eq, hdot_eq]
  rw [if_pos (by omega)]
  have e1 : (((dir.length : Int) + 1 + doc.length) - dir.length - 1).toNat = doc.length := by
    omega
  have e2 : ((dir.length : Int) + 1).toNat = dir.length + 1 := by omega
  have e3 : (dir ++ '/' :: (doc ++ ".pdf".data)).drop (dir.length + 1) = doc ++ ".pdf".data := by
    have : dir ++ '/' :: (doc ++ ".pdf".data) = (dir ++ ['/']) ++ (doc ++ ".pdf".data) := by
      simp
    rw [this]
    exact List.drop_left' hlen1
  have e4 : (doc ++ ".pdf".data).take doc.length = doc := List.take_left' rfl
  rw [e1, e2, e3, e4]
  rw [if_neg (by
    intro hall
    obtain ⟨c, hc, hne⟩ := hdot
    have := List.all_eq_true.mp hall c hc
    simp at this
    exact hne this)]
  have e5 : (((dir.length : Int) + 1 + doc.length)).toNat = dir.length + 1 + doc.length := by
    omega
  rw [e5, hassoc, List.take_left' hlen2, List.drop_left' hlen2]

theorem chunks_flatten (lst : List α) (n : Nat) : 1 ≤ n → (chunks lst n).flatten = lst := by
  induction lst, n using chunks.induct with
  | case1 n => intro _; simp [chunks]
  | case2 x xs => intro h; omega
  | case3 x xs n ih =>
    intro _
    rw [chunks]
    simp only [List.flatten_cons]
    rw [ih (by omega), List.take_append_drop]

theorem chunks_ne_nil (x : α) (xs : List α) (n : Nat) (hn : 1 ≤ n) :
    chunks (x :: xs) n ≠ [] := by
  obtain ⟨k, rfl⟩ : ∃ k, n = k + 1 := ⟨n - 1, by omega⟩
  rw [chunks]
  simp

theorem chunks_length (lst : List α) (n : Nat) : 1 ≤ n →
    (chunks lst n).length = (lst.length + n - 1) / n := by
  induction lst, n using chunks.induct with
  | case1 n =>
    intro hn
    simp only [chunks, List.length_nil, Nat.zero_add]
    rw [Nat.div_eq_of_lt (by omega)]
  | case2 x xs => intro h; omega
  | case3 x xs n ih =>
    intro hn
    rw [chunks]
    simp only [List.length_cons]
    rw [ih (by omega)]
    simp only [List.length_drop, List.length_cons]
    have key : xs.length + 1 + (n + 1) - 1 = (xs.length + 1 - 1) + (n + 1) := by omega
    rw [key, Nat.add_div_right _ (by omega)]
    have h3 : (xs.length + 1 - (n + 1) + (n + 1) - 1) / (n + 1)
        = (xs.length + 1 - 1) / (n + 1) := by
      rcases Nat.le_total (n + 1) (xs.length + 1) with hle | hle
      · congr 1
        omega
      · rw [Nat.div_eq_of_lt (by omega), Nat.div_eq_of_lt (by omega)]
    rw [h3]

theorem chunks_dropLast (lst : List α) (n : Nat) : 1 ≤ n →
    ∀ c ∈ (chunks lst n).dropLast, c.length = n := by
  induction lst, n using chunks.induct with
  | case1 n => intro _; simp [chunks]
  | case2 x xs => intro h; omega
  | case3 x xs n ih =>
    intro hn
    rw [chunks]
    rcases hd : List.drop (n + 1) (x :: xs) with _ | ⟨y, ys⟩
    · simp [chunks]
    · have hlen : n + 1 ≤ xs.length + 1 := by
        by_contra hcon
        have : List.drop (n + 1) (x :: xs) = [] :=
          List.drop_of_length_le (by simp; omega)
        rw [this] at hd
        cases hd
      rcases hcne : chunks (y :: ys) (n + 1) with _ | ⟨c, cs⟩
      · exact absurd hcne (chunks_ne_nil y ys (n + 1) (by omega))
      · rw [List.dropLast_cons₂]
        intro a ha
        rcases List.mem_cons.mp ha with rfl | ha2
        · rw [List.length_take]
          simp
          omega
        · have := ih (by omega)
          rw [hd, hcne] at this
          exact this a ha2

/-- Shared branch analysis: when the pre-checked text length is strictly below
a configured threshold, `process_single_pdf` returns exactly the short-skip
result — one attempt event, no engine call, no write, no upload. -/
theorem process_below_min_eq (fname lf : String) (beh : DocBehavior) (m : Int)
    (hf : beh.fetch = .ok lf) (hl : (beh.textLength : Int) < m) :
    process_single_pdf fname beh (some m) =
      .ok ⟨.skippedShort, [⟨"Converting " ++ fname, false⟩], true, false, false, false,
        String.mk (out_relative_path fname.data)⟩ := by
  have hm : m ≠ 0 := by
    have : (0 : Int) ≤ (beh.textLength : Int) := Int.natCast_nonneg _
    omega
  simp only [process_single_pdf]
  rw [hf]
  simp [hm, hl]

/-- Shared branch analysis: every normally-returning run reports the
destination path computed by `out_relative_path`. -/
theorem process_outPath (fname : String) (beh : DocBehavior) (ml : Option Int)
    (res : RunResult) (hr : process_single_pdf fname beh ml = .ok res) :
    res.outPath = String.mk (out_relative_path fname.data) := by
  rcases hb : beh.fetch with e | lf
  · simp only [process_single_pdf, hb] at hr
    simp at hr
  · simp only [process_single_pdf, hb] at hr
    by_cases hg : ((ml.getD 0 ≠ 0) ∧ ((beh.textLength : Int) < ml.getD 0))
    · rw [if_pos hg] at hr
      rw [Except.ok.injEq] at hr
      subst hr
      rfl
    · rw [if_neg hg] at hr
      rcases hc : beh.convert with e | ft
      · simp only [hc] at hr
        rw [Except.ok.injEq] at hr
        subst hr
        rfl
      · simp only [hc] at hr
        rcases hps : (post_process ft (String.mk (basename (String.mk ((splitext lf.data).1 ++ ".md".data)).data)) beh.upload).raised with _ | e
        · simp only [hps] at hr
          rw [Except.ok.injEq] at hr
          subst hr
          rfl
        · simp only [hps] at hr
          rw [Except.ok.injEq] at hr
          subst hr
          rfl

/-! ## Claim theorems -/

/-- C1: the claim says `process_single_pdf` never lets an exception past its
own boundary.  The code violates it: when the fetch raises, the `except`
handler needs the local variable `local_file`, which was never assigned, so
an `UnboundLocalError` escapes `process_single_pdf` (and would abort the
enclosing minibatch loop).  This theorem evaluates the embedding at such a
failing input: a manifest entry whose fetch raises `ConnectionError`. -/
theorem fetch_failure_escapes_boundary :
    process_single_pdf "A/B/doc.pdf"
        ⟨.error "ConnectionError", 0, .ok "", .ok ()⟩ (some 2000)
      = .error "UnboundLocalError: local_file" := rfl

/-- C2: slicing the fetched manifest with `[offset : offset + length]` yields
exactly `max 0 (min length (totalFileCount - offset))` entries, and the empty
list — a valid result, not an error — whenever `offset ≥ totalFileCount`. -/
theorem resolveRange_spec (enc : String → String) (lines : List String)
    (offset length : Nat) :
    ((resolveRange enc lines offset length).length : Int)
        = max 0 (min (length : Int) ((lines.length : Int) - (offset : Int))) ∧
      (lines.length ≤ offset → resolveRange enc lines offset length = []) := by
  constructor
  · simp [resolveRange]
    omega
  · intro h
    simp [resolveRange]
    omega

/-- Witness for C2 at `lines = ["a", "b", "c"]`, `offset = 5`, `length = 2`:
the slice past the end is empty. -/
theorem resolveRange_spec_witness : resolveRange id ["a", "b", "c"] 5 2 = [] :=
  (resolveRange_spec id ["a", "b", "c"] 5 2).2 (by decide)

/-- C3: when a minimum length is configured and the cheaply pre-checked text
length is strictly below it, the document is skipped (one attempt log event,
nothing written or uploaded) and the conversion engine is never invoked. -/
theorem below_min_length_skips_without_engine (fname lf : String)
    (beh : DocBehavior) (m : Int)
    (hf : beh.fetch = .ok lf) (hl : (beh.textLength : Int) < m) :
    process_single_pdf fname beh (some m) =
      .ok ⟨.skippedShort, [⟨"Converting " ++ fname, false⟩], true, false, false, false,
        String.mk (out_relative_path fname.data)⟩ :=
  process_below_min_eq fname lf beh m hf hl

/-- Witness for C3: a fetched document with 5 characters of embedded text
against a threshold of 2000. -/
theorem below_min_length_skips_without_engine_witness :
    process_single_pdf "A/B/doc.pdf" ⟨.ok "tmp/doc.pdf", 5, .ok "text", .ok ()⟩ (some 2000) =
      .ok ⟨.skippedShort, [⟨"Converting " ++ "A/B/doc.pdf", false⟩], true, false, false, false,
        String.mk (out_relative_path "A/B/doc.pdf".data)⟩ :=
  below_min_length_skips_without_engine "A/B/doc.pdf" "tmp/doc.pdf"
    ⟨.ok "tmp/doc.pdf", 5, .ok "text", .ok ()⟩ 2000 rfl (by decide)

/-- C4: for a non-empty entry list and minibatch size at least 1, `chunks`
yields exactly `⌈entries.length / n⌉` (written `(entries.length + n - 1) / n`)
minibatches, every chunk but possibly the last has size exactly `n`, and
concatenating the chunks in order reproduces the entry list. -/
theorem partitionIntoMinibatches_spec (entries : List String) (n : Nat)
    (hn : 1 ≤ n) (_hne : entries ≠ []) :
    (chunks entries n).length = (entries.length + n - 1) / n ∧
      (∀ c ∈ (chunks entries n).dropLast, c.length = n) ∧
      (chunks entries n).flatten = entries :=
  ⟨chunks_length entries n hn, chunks_dropLast entries n hn, chunks_flatten entries n hn⟩

/-- Witness for C4: three entries in minibatches of two give two minibatches. -/
theorem partitionIntoMinibatches_spec_witness :
    (chunks ["a", "b", "c"] 2).length = 2 :=
  (partitionIntoMinibatches_spec ["a", "b", "c"] 2 (by decide) (by decide)).1

/-- C5: a conversion result whose text trims to empty is neither written nor
uploaded, and the document ends in a skipped outcome. -/
theorem empty_result_not_written_not_uploaded (fname : String)
    (beh : DocBehavior) (ml : Option Int) (ft : String) (res : RunResult)
    (hc : beh.convert = .ok ft) (ht : pyStrip ft.data = [])
    (hr : process_single_pdf fname beh ml = .ok res) :
    res.wrote = false ∧ res.uploaded = false ∧ res.outcome.isSkipped = true := by
  rcases hb : beh.fetch with e | lf
  · simp only [process_single_pdf, hb] at hr
    simp at hr
  · simp only [process_single_pdf, hb] at hr
    by_cases hg : ((ml.getD 0 ≠ 0) ∧ ((beh.textLength : Int) < ml.getD 0))
    · rw [if_pos hg] at hr
      rw [Except.ok.injEq] at hr
      subst hr
      simp [Outcome.isSkipped]
    · rw [if_neg hg] at hr
      simp only [hc] at hr
      simp only [post_process, ht] at hr
      simp only [List.length_nil, lt_self_iff_false, if_false] at hr
      rw [Except.ok.injEq] at hr
      subst hr
      simp [Outcome.isSkipped]

/-- Witness for C5: a document converting to whitespace-only text is skipped
with no write and no upload. -/
theorem empty_result_not_written_not_uploaded_witness :
    (⟨.skippedEmpty,
      [⟨"Converting " ++ "A/B/doc.pdf", false⟩,
       ⟨"Empty file: " ++ "doc.md" ++ ".  No valid convert result", false⟩],
      false, true, false, false, String.mk (out_relative_path "A/B/doc.pdf".data)⟩
        : RunResult).wrote = false ∧
    (⟨.skippedEmpty,
      [⟨"Converting " ++ "A/B/doc.pdf", false⟩,
       ⟨"Empty file: " ++ "doc.md" ++ ".  No valid convert result", false⟩],
      false, true, false, false, String.mk (out_relative_path "A/B/doc.pdf".data)⟩
        : RunResult).uploaded = false ∧
    (⟨.skippedEmpty,
      [⟨"Converting " ++ "A/B/doc.pdf", false⟩,
       ⟨"Empty file: " ++ "doc.md" ++ ".  No valid convert result", false⟩],
      false, true, false, false, String.mk (out_relative_path "A/B/doc.pdf".data)⟩
        : RunResult).outcome.isSkipped = true :=
  empty_result_not_written_not_uploaded "A/B/doc.pdf"
    ⟨.ok "tmp/doc.pdf", 5, .ok "   ", .ok ()⟩ none "   " _ rfl (by decide) rfl

/-- C6: for a manifest entry of the form `dir/doc.pdf` the destination path
of the artifact is `dir/doc.md` — the extension is replaced and the directory
part is mirrored unchanged; consequently every normally-returning
`process_single_pdf` run on such an entry reports exactly that path. -/
theorem uploaded_artifact_path_mirrors (dir doc : List Char)
    (hsep : '/' ∉ doc) (hdot : ∃ c ∈ doc, c ≠ '.') :
    out_relative_path (dir ++ '/' :: (doc ++ ".pdf".data))
        = dir ++ '/' :: (doc ++ ".md".data) ∧
      ∀ (beh : DocBehavior) (ml : Option Int) (res : RunResult),
        process_single_pdf (String.mk (dir ++ '/' :: (doc ++ ".pdf".data))) beh ml = .ok res →
        res.outPath = String.mk (dir ++ '/' :: (doc ++ ".md".data)) := by
  have h1 : out_relative_path (dir ++ '/' :: (doc ++ ".pdf".data))
      = dir ++ '/' :: (doc ++ ".md".data) := by
    rw [out_relative_path, splitext_dir_doc dir doc hsep hdot]
    simp
  refine ⟨h1, ?_⟩
  intro beh ml res hr
  rw [process_outPath _ _ _ _ hr]
  exact congrArg String.mk h1

/-- Witness for C6 at `dir = "A/B"`, `doc = "doc"`. -/
theorem uploaded_artifact_path_mirrors_witness :
    out_relative_path ("A/B".data ++ '/' :: ("doc".data ++ ".pdf".data))
      = "A/B".data ++ '/' :: ("doc".data ++ ".md".data) :=
  (uploaded_artifact_path_mirrors "A/B".data "doc".data (by decide) (by decide)).1

/-- C7: the claim says one Task per JobRange covering the whole of
`[0, totalFileCount)` is submitted.  The code violates it: the submit loop
body ends in an unconditional `break`, so for `totalFileCount = 3` and
`batchSize = 1` — where the claim requires three tasks — exactly one task,
covering only `[0, 1)`, is built and submitted. -/
theorem submit_loop_builds_single_task :
    build_tasks 3 1 = [⟨"task-0-0", 0, 1⟩] ∧ (build_tasks 3 1).length = 1 := by
  constructor
  · rfl
  · rfl

/-- C8: the event aggregator terminates exactly when a sentinel (`none`) is
among the dequeued messages, and for any events enqueued before the sentinel
it prints precisely those events, in queue-arrival order, before stopping. -/
theorem aggregator_sentinel_spec :
    (∀ msgs : List (Option String), (monitor_queue msgs).isSome = true ↔ none ∈ msgs) ∧
      ∀ (evs : List String) (rest : List (Option String)),
        monitor_queue (evs.map some ++ none :: rest) = some evs := by
  constructor
  · intro msgs
    induction msgs with
    | nil => simp [monitor_queue]
    | cons m rest ih =>
      cases m with
      | none => simp [monitor_queue]
      | some s => simp [monitor_queue, ih]
  · intro evs rest
    induction evs with
    | nil => rfl
    | cons e es ih => simp [monitor_queue, ih]

/-- Witness for C8: two events before the sentinel are printed in order; the
message after the sentinel is not. -/
theorem aggregator_sentinel_spec_witness :
    monitor_queue (["a", "b"].map some ++ none :: [some "c"]) = some ["a", "b"] :=
  aggregator_sentinel_spec.2 ["a", "b"] [some "c"]

/-- C9 counterexample: a document skipped for below-minimum text length
(pre-checked length 7 against threshold 100) produces exactly one event —
the "Converting" attempt line logged before the check — and no event
recording the skip, refuting the claim that every benign skip is recorded
by an informational event. -/
theorem below_min_skip_logs_no_event :
    process_single_pdf "X/scan.pdf" ⟨.ok "tmp/scan.pdf", 7, .ok "text", .ok ()⟩ (some 100)
      = .ok ⟨.skippedShort, [⟨"Converting X/scan.pdf", false⟩], true, false, false, false,
          "X/scan.md"⟩ := rfl

/-- C9 (amended): the empty-result skip logs exactly one informational
(non-error) event recording the skip; the below-minimum-length skip logs no
event at all beyond the attempt line that precedes the check. -/
theorem skip_event_logging (ft bn : String) (u : Except String Unit)
    (ht : pyStrip ft.data = []) :
    ((post_process ft bn u).events
        = [⟨"Empty file: " ++ bn ++ ".  No valid convert result", false⟩] ∧
      ∀ e ∈ (post_process ft bn u).events, e.isError = false) ∧
      ∀ (fname lf : String) (beh : DocBehavior) (m : Int) (res : RunResult),
        beh.fetch = .ok lf → (beh.textLength : Int) < m →
        process_single_pdf fname beh (some m) = .ok res →
        res.events = [⟨"Converting " ++ fname, false⟩] := by
  refine ⟨⟨?_, ?_⟩, ?_⟩
  · simp [post_process, ht]
  · simp [post_process, ht]
  · intro fname lf beh m res hf hl hr
    rw [process_below_min_eq fname lf beh m hf hl] at hr
    rw [Except.ok.injEq] at hr
    subst hr
    rfl

/-- Witness for C9 (amended): whitespace-only converted text yields the one
informational empty-file event. -/
theorem skip_event_logging_witness :
    (post_process "  " "doc.md" (Except.ok ())).events
      = [⟨"Empty file: " ++ "doc.md" ++ ".  No valid convert result", false⟩] :=
  (skip_event_logging "  " "doc.md" (.ok ()) (by decide)).1.1

/-- C10: a configured threshold of 0 is falsy in Python, so the quality gate
is bypassed exactly as when no threshold is configured: the two runs are
identical (definitionally equal in the embedding), the pre-check is never
invoked, and — whenever the fetch succeeds — the engine always is. -/
theorem min_length_zero_same_as_none (fname : String) (beh : DocBehavior) :
    process_single_pdf fname beh (some 0) = process_single_pdf fname beh none ∧
      ∀ (lf : String) (res : RunResult), beh.fetch = .ok lf →
        process_single_pdf fname beh (some 0) = .ok res →
        res.precheckInvoked = false ∧ res.engineInvoked = true := by
  refine ⟨rfl, ?_⟩
  intro lf res hf hr
  simp only [process_single_pdf, hf] at hr
  rw [if_neg (by simp)] at hr
  rcases hc : beh.convert with e | ft
  · simp only [hc] at hr
    rw [Except.ok.injEq] at hr
    subst hr
    simp
  · simp only [hc] at hr
    rcases hps : (post_process ft (String.mk (basename (String.mk ((splitext lf.data).1 ++ ".md".data)).data)) beh.upload).raised with _ | e
    · simp only [hps] at hr
      rw [Except.ok.injEq] at hr
      subst hr
      simp
    · simp only [hps] at hr
      rw [Except.ok.injEq] at hr
      subst hr
      simp

/-- Witness for C10: a successfully fetched and converted document under
threshold 0 skips the pre-check and runs the engine. -/
theorem min_length_zero_same_as_none_witness :
    (⟨.success, [⟨"Converting " ++ "a.pdf", false⟩, ⟨"Uploading " ++ "a.md", false⟩],
      false, true, true, true, "a.md"⟩ : RunResult).precheckInvoked = false ∧
    (⟨.success, [⟨"Converting " ++ "a.pdf", false⟩, ⟨"Uploading " ++ "a.md", false⟩],
      false, true, true, true, "a.md"⟩ : RunResult).engineInvoked = true :=
  (min_length_zero_same_as_none "a.pdf" ⟨.ok "tmp/a.pdf", 0, .ok "hello", .ok ()⟩).2
    "tmp/a.pdf" _ rfl rfl

end ConvertBatch
